import Mathlib

/-!
Verification of the CCQ (cross-chain query) request validator and the
query orchestrator of the sol2-link guardian node.

Part 1 embeds `validateRequest`, `validateSolanaAccountQuery` and
`validateSolanaPdaQuery` from `node/cmd/ccq/utils.go`.  The functions the
validator calls out to but which live in other packages
(`QueryRequest.Unmarshal`, `QueryRequest.Validate`, `QueryRequestDigest`,
`ethCrypto.Sign`) are kept abstract as an `Ext` record of external
functions; the validator's own control flow, error codes, metric
increments, and mutation of the signed request are translated line by
line from the Go source.

Part 2 models the query orchestrator (pending-query state machine).
-/

namespace CCQ

/-- Raw byte strings (request bytes, signatures) as lists of naturals. -/
abbrev Bytes := List Nat

/-- Embeds `gossipv1.SignedQueryRequest`: serialized query request plus a
(possibly empty) signature. -/
structure SignedQueryRequest where
  queryRequest : Bytes
  signature : Bytes
deriving Repr, DecidableEq

/-- Embeds `query.SolanaAccountQueryRequest`, restricted to the field inspected by
the validator: the list of requested accounts, each rendered as its
base58 `solana.PublicKey` string. -/
structure SolanaAccountQueryRequest where
  accounts : List String
deriving Repr, DecidableEq

/-- One entry of `SolanaPdaQueryRequest.PDAs`; the validator only reads the
program address (rendered as its base58 string). -/
structure SolanaPda where
  programAddress : String
deriving Repr, DecidableEq

/-- Embeds `query.SolanaPdaQueryRequest`, restricted to the PDA list. -/
structure SolanaPdaQueryRequest where
  pdas : List SolanaPda
deriving Repr, DecidableEq

/-- The variant type of `PerChainQueryRequest.Query`.  `unsupported` stands
for every variant other than the two the validator's switch handles
(it falls into the `default` arm of the switch in `validateRequest`). -/
inductive ChainSpecificQuery where
  | solanaAccount (q : SolanaAccountQueryRequest)
  | solanaPda (q : SolanaPdaQueryRequest)
  | unsupported
deriving Repr, DecidableEq

/-- Embeds `query.PerChainQueryRequest`. -/
structure PerChainQueryRequest where
  chainId : Nat
  query : ChainSpecificQuery
deriving Repr, DecidableEq

/-- Embeds `query.QueryRequest`. -/
structure QueryRequest where
  nonce : Nat
  perChainQueries : List PerChainQueryRequest
deriving Repr, DecidableEq

/-- Embeds `permissionEntry` from the ccq permissions file: user name, the
allow-unsigned flag and the set of authorized call keys. -/
structure PermissionEntry where
  userName : String
  allowUnsigned : Bool
  allowedCalls : List String
deriving Repr, DecidableEq

/-- Embeds `Permissions`: the per-API-key permission table. -/
structure Permissions where
  permMap : List (String × PermissionEntry)
deriving Repr, DecidableEq

/-- Embeds `Permissions.GetUserEntry`. -/
def Permissions.getUserEntry (p : Permissions) (apiKey : String) :
    Option PermissionEntry :=
  (p.permMap.find? (fun kv => kv.fst = apiKey)).map Prod.snd

/-- The functions `validateRequest` calls that live outside
`node/cmd/ccq/utils.go`: request digesting (`query.QueryRequestDigest`,
parameterized by the environment), local signing (`ethCrypto.Sign`,
parameterized by the signer key, may fail), deserialization
(`query.QueryRequest.Unmarshal`, may fail) and structural validation
(`query.QueryRequest.Validate`). -/
structure Ext where
  queryRequestDigest : Nat → Bytes → Bytes
  sign : Bytes → Nat → Option Bytes
  unmarshal : Bytes → Option QueryRequest
  validate : QueryRequest → Bool

/-- The call key `fmt.Sprintf("%s:%d:%s", callTag, chainId, addr)`. -/
def callKey (callTag : String) (chainId : Nat) (addr : String) : String :=
  callTag ++ ":" ++ toString chainId ++ ":" ++ addr

/-- Outcome of one of the per-query validators: HTTP status, optional
error, the labels pegged on the `invalidQueryRequestReceived` counter and
the chain ids pegged on the `totalRequestedCallsByChain` counter, in
program order. -/
structure SubValidateResult where
  status : Nat
  errMsg : Option String
  invalidReasons : List String
  requestedCallsByChain : List Nat
deriving Repr, DecidableEq

/-- Embeds `validateSolanaAccountQuery` (`utils.go`): walk the accounts; an account
whose call key is not in `allowedCalls` aborts with 403 after pegging the
`call_not_authorized` counter; each authorized account pegs the
per-chain requested-calls counter before the next account is examined. -/
def validateSolanaAccountQuery (permsForUser : PermissionEntry)
    (callTag : String) (chainId : Nat) (q : SolanaAccountQueryRequest) :
    SubValidateResult :=
  go q.accounts
where
  go : List String → SubValidateResult
  | [] => ⟨200, none, [], []⟩
  | acct :: rest =>
    let key := callKey callTag chainId acct
    if key ∈ permsForUser.allowedCalls then
      let r := go rest
      { r with requestedCallsByChain := chainId :: r.requestedCallsByChain }
    else
      ⟨403, some ("call " ++ key ++ " not authorized"),
        ["call_not_authorized"], []⟩

/-- Embeds `validateSolanaPdaQuery` (`utils.go`): same walk over the PDA program
addresses with call tag `solPDA`. -/
def validateSolanaPdaQuery (permsForUser : PermissionEntry)
    (callTag : String) (chainId : Nat) (q : SolanaPdaQueryRequest) :
    SubValidateResult :=
  go q.pdas
where
  go : List SolanaPda → SubValidateResult
  | [] => ⟨200, none, [], []⟩
  | pda :: rest =>
    let key := callKey callTag chainId pda.programAddress
    if key ∈ permsForUser.allowedCalls then
      let r := go rest
      { r with requestedCallsByChain := chainId :: r.requestedCallsByChain }
    else
      ⟨403, some ("call " ++ key ++ " not authorized"),
        ["call_not_authorized"], []⟩

/-- The body of one iteration of the
`for _, pcq := range queryRequest.PerChainQueries` loop of
`validateRequest`: the switch on the query variant, whose `default` arm
rejects with 400 `unsupported_query_type`. -/
def subValidateQuery (permsForUser : PermissionEntry)
    (pcq : PerChainQueryRequest) : SubValidateResult :=
  match pcq.query with
  | .solanaAccount q =>
    validateSolanaAccountQuery permsForUser "solAccount" pcq.chainId q
  | .solanaPda q =>
    validateSolanaPdaQuery permsForUser "solPDA" pcq.chainId q
  | .unsupported =>
    ⟨400, some "unsupported query type", ["unsupported_query_type"], []⟩

/-- The `for _, pcq := range queryRequest.PerChainQueries` loop of
`validateRequest`: the first failing sub-query aborts the loop with its
status and error, keeping the counters already pegged by the preceding
(successful) sub-queries. -/
def validatePerChainQueries (permsForUser : PermissionEntry) :
    List PerChainQueryRequest → SubValidateResult
  | [] => ⟨200, none, [], []⟩
  | pcq :: rest =>
    let sub := subValidateQuery permsForUser pcq
    match sub.errMsg with
    | some _ => sub
    | none =>
      let r := validatePerChainQueries permsForUser rest
      { r with
        invalidReasons := sub.invalidReasons ++ r.invalidReasons,
        requestedCallsByChain :=
          sub.requestedCallsByChain ++ r.requestedCallsByChain }

/-- Full outcome of `validateRequest`: the HTTP status, the returned
`*query.QueryRequest` (`none` on every error path), the returned error,
the final state of the caller's `SignedQueryRequest` (the Go function may
mutate its `Signature` field in place), and the metric increments. -/
structure ValidateResult where
  status : Nat
  queryRequest : Option QueryRequest
  errMsg : Option String
  signedRequest : SignedQueryRequest
  invalidReasons : List String
  requestedCallsByChain : List Nat
deriving Repr, DecidableEq

/-- The tail of `validateRequest` after the signature handling (lines of
`utils.go` from the `Unmarshal` call to the final return): deserialize
the request bytes, run `Validate`, then authorize every per-chain query;
`qr2` is the signed request as it stands at this point (it may have just
been co-signed). -/
def validateRequestBody (ext : Ext) (permsForUser : PermissionEntry)
    (qr2 : SignedQueryRequest) : ValidateResult :=
  match ext.unmarshal qr2.queryRequest with
  | none =>
    ⟨400, none, some "failed to unmarshal request", qr2,
      ["failed_to_unmarshal_request"], []⟩
  | some queryRequest =>
    if ext.validate queryRequest then
      let sub := validatePerChainQueries permsForUser
        queryRequest.perChainQueries
      match sub.errMsg with
      | some e =>
        ⟨sub.status, none, some e, qr2, sub.invalidReasons,
          sub.requestedCallsByChain⟩
      | none =>
        ⟨200, some queryRequest, none, qr2, sub.invalidReasons,
          sub.requestedCallsByChain⟩
    else
      ⟨400, none, some "failed to validate request", qr2,
        ["failed_to_validate_request"], []⟩

/-- Embeds `validateRequest` (`utils.go`): look up the API key; handle an empty
signature (reject unless `allowUnsigned` and a signer key is configured,
otherwise sign the digest of the raw request bytes with the local key and
store the signature in the request); then unmarshal, validate and
authorize every per-chain query (`validateRequestBody`).  Signatures
that arrive non-empty are never inspected. -/
def validateRequest (ext : Ext) (env : Nat) (perms : Permissions)
    (signerKey : Option Nat) (apiKey : String) (qr : SignedQueryRequest) :
    ValidateResult :=
  match perms.getUserEntry apiKey with
  | none =>
    ⟨403, none, some "invalid api key", qr, ["invalid_api_key"], []⟩
  | some permsForUser =>
    if qr.signature.length = 0 then
      match signerKey, permsForUser.allowUnsigned with
      | some key, true =>
        match ext.sign (ext.queryRequestDigest env qr.queryRequest) key with
        | some sig =>
          validateRequestBody ext permsForUser { qr with signature := sig }
        | none =>
          ⟨500, none, some "failed to sign request", qr,
            ["failed_to_sign_request"], []⟩
      | _, _ =>
        ⟨400, none, some "request not signed", qr,
          ["request_not_signed"], []⟩
    else
      validateRequestBody ext permsForUser qr

/-- A per-chain query is of a kind the validator's switch supports
(Solana account or Solana PDA). -/
def pcqSupported (pcq : PerChainQueryRequest) : Prop :=
  pcq.query ≠ ChainSpecificQuery.unsupported

instance (pcq : PerChainQueryRequest) : Decidable (pcqSupported pcq) := by
  unfold pcqSupported
  infer_instance

/-- Every call of a per-chain query is in the caller's authorized call
set: every account of a `SolanaAccount` query under tag `solAccount`,
every PDA program address of a `SolanaPda` query under tag `solPDA`.
Queries of unsupported kinds carry no calls. -/
def pcqAuthorized (e : PermissionEntry) (pcq : PerChainQueryRequest) :
    Prop :=
  match pcq.query with
  | .solanaAccount q =>
    ∀ a ∈ q.accounts, callKey "solAccount" pcq.chainId a ∈ e.allowedCalls
  | .solanaPda q =>
    ∀ p ∈ q.pdas,
      callKey "solPDA" pcq.chainId p.programAddress ∈ e.allowedCalls
  | .unsupported => True

instance (e : PermissionEntry) (pcq : PerChainQueryRequest) :
    Decidable (pcqAuthorized e pcq) := by
  unfold pcqAuthorized
  rcases pcq with ⟨c, q | q | _⟩ <;> infer_instance

/-- Number of authorized-call checks a per-chain query gives rise to. -/
def pcqNumCalls (pcq : PerChainQueryRequest) : Nat :=
  match pcq.query with
  | .solanaAccount q => q.accounts.length
  | .solanaPda q => q.pdas.length
  | .unsupported => 0

/-- Total number of calls in a request's per-chain query list. -/
def totalCalls (pcqs : List PerChainQueryRequest) : Nat :=
  (pcqs.map pcqNumCalls).sum

/-! Part 2: the query orchestrator.

Modelled from the spec: the orchestrator control loop
(`handleQueryRequestsImpl` in `node/pkg/query`) is not among the source
files; only its test harness (`node/pkg/query/query_test.go`) and its
wiring (`GuardianOptionQueryHandler`, `GuardianOptionWatchers`) are.
The definitions below follow spec sections 3 and 4.3: a `PendingQuery`
holds one `PerChainState` per per-chain query, correlated by
`requestIdx`; watcher results arrive as
`PerChainQueryResponseInternal{requestIdx, chainId, status, response}`
messages; a result whose `chainId` differs from the chain recorded for
its `requestIdx` is fatal to the whole request; `Success` records the
result at its index (first success wins); `RetryNeeded` re-dispatches
the sub-query (one re-dispatch per retry report) and bumps the retry
counter; `FatalError` abandons the request; a publication is built, in
request order, only once every index holds a success.  Wall-clock
behavior (retry pacing, audit-sweep timing, absolute timeout) is
abstracted away: each `RetryNeeded` leads to exactly one re-dispatch,
whether immediate or via the next audit sweep. -/

/-- The status a watcher reports for one sub-query
(`query.QueryStatus`). -/
inductive WatcherStatus where
  | success
  | retryNeeded
  | fatalError
deriving Repr, DecidableEq

/-- A per-chain result payload together with the chain it came from
(`query.PerChainQueryResponse`). -/
structure PerChainQueryResponse where
  chainId : Nat
  payload : Nat
deriving Repr, DecidableEq

/-- A watcher-to-orchestrator result message
(`query.PerChainQueryResponseInternal`), already matched to its pending
query by request id; `response` is the chain-specific result payload,
meaningful on success. -/
structure PerChainQueryResponseInternal where
  requestIdx : Nat
  chainId : Nat
  status : WatcherStatus
  response : Nat
deriving Repr, DecidableEq

/-- Modelled from the spec: the orchestrator's per-sub-query record
(`PerChainState` of section 3): the chain recorded at dispatch time, the
recorded result (`some` exactly when the sub-query has succeeded), the
retry counter and the number of dispatches onto the chain's worker
queue so far. -/
structure PerChainState where
  chainId : Nat
  result : Option PerChainQueryResponse
  retryCount : Nat
  dispatchCount : Nat
deriving Repr, DecidableEq

/-- Modelled from the spec: a pending query's per-sub-query state array,
index-aligned with the original `perChainQueries`. -/
structure PendingQuery where
  perChainState : List PerChainState
deriving Repr, DecidableEq

/-- Initial pending query: one state per per-chain query, chain recorded
from the request, no result, and one dispatch already counted (the
initial fan-out sends every sub-query to its chain's worker queue
once). -/
def initPendingQuery (queries : List PerChainQueryRequest) : PendingQuery :=
  ⟨queries.map (fun q => ⟨q.chainId, none, 0, 1⟩)⟩

/-- Outcome of one orchestrator step: the request either stays pending
(with an updated state) or is abandoned (fatal error or misrouted
response), never to produce a publication. -/
inductive OrchStep where
  | running (pq : PendingQuery)
  | abandoned
deriving Repr, DecidableEq

/-- Modelled from the spec (section 4.3): process one watcher result.
An index with no record drops the message; a `chainId` differing from
the chain recorded for `requestIdx` is fatal to the whole request;
`success` records the result at the index unless one is already
recorded (idempotence: the first success wins); `retryNeeded` bumps the
retry counter and re-dispatches (one more dispatch); `fatalError`
abandons the request. -/
def processResponse (pq : PendingQuery)
    (resp : PerChainQueryResponseInternal) : OrchStep :=
  match pq.perChainState[resp.requestIdx]? with
  | none => .running pq
  | some st =>
    if resp.chainId ≠ st.chainId then
      .abandoned
    else
      match resp.status with
      | .success =>
        match st.result with
        | some _ => .running pq
        | none =>
          .running ⟨pq.perChainState.set resp.requestIdx
            { st with result := some ⟨resp.chainId, resp.response⟩ }⟩
      | .retryNeeded =>
        .running ⟨pq.perChainState.set resp.requestIdx
          { st with retryCount := st.retryCount + 1,
                    dispatchCount := st.dispatchCount + 1 }⟩
      | .fatalError => .abandoned

/-- Process a sequence of watcher results; abandonment is absorbing. -/
def processAll (pq : PendingQuery) :
    List PerChainQueryResponseInternal → OrchStep
  | [] => .running pq
  | r :: rest =>
    match processResponse pq r with
    | .running pq2 => processAll pq2 rest
    | .abandoned => .abandoned

/-- A pending query is complete when every sub-query has a recorded
success. -/
def PendingQuery.complete (pq : PendingQuery) : Bool :=
  pq.perChainState.all (fun st => st.result.isSome)

/-- Build the aggregate response list in original request order from a
complete pending query. -/
def buildPublication (pq : PendingQuery) : List PerChainQueryResponse :=
  pq.perChainState.filterMap (fun st => st.result)

/-- Run a request end to end against a result trace: fan out, process
every result, and publish exactly when the pending query completed
without being abandoned. -/
def runQuery (queries : List PerChainQueryRequest)
    (resps : List PerChainQueryResponseInternal) :
    Option (List PerChainQueryResponse) :=
  match processAll (initPendingQuery queries) resps with
  | .abandoned => none
  | .running pq => if pq.complete then some (buildPublication pq) else none

/-- Test whether a message is a `RetryNeeded` report for sub-query
index `i`. -/
def isRetryFor (i : Nat) (m : PerChainQueryResponseInternal) : Bool :=
  m.requestIdx == i &&
    match m.status with
    | .retryNeeded => true
    | _ => false

/-- Number of `RetryNeeded` reports for sub-query `i` in a trace. -/
def countRetries (i : Nat)
    (resps : List PerChainQueryResponseInternal) : Nat :=
  resps.countP (isRetryFor i)

/-- A message is well routed with respect to a request: if its
`requestIdx` is in range, its `chainId` equals the chain of the query at
that index (out-of-range messages are vacuously well routed; the
orchestrator drops them). -/
def wellRouted (queries : List PerChainQueryRequest)
    (m : PerChainQueryResponseInternal) : Prop :=
  ((queries.map PerChainQueryRequest.chainId)[m.requestIdx]?).getD
    m.chainId = m.chainId

instance (queries : List PerChainQueryRequest)
    (m : PerChainQueryResponseInternal) :
    Decidable (wellRouted queries m) :=
  inferInstanceAs (Decidable
    (((queries.map PerChainQueryRequest.chainId)[m.requestIdx]?).getD
      m.chainId = m.chainId))

/-- The list of chains recorded in a pending query, in index order. -/
def chainProfile (pq : PendingQuery) : List Nat :=
  pq.perChainState.map PerChainState.chainId

/-! Concrete inputs used to evaluate the theorems. -/

/-- A concrete instantiation of the external functions: the digest
prefixes the environment byte, signing prefixes the key byte, empty
bytes fail to deserialize, any other bytes deserialize to `q`, and
structural validation always passes. -/
def extFix (q : QueryRequest) : Ext where
  queryRequestDigest := fun e bs => e :: bs
  sign := fun d k => some (k :: d)
  unmarshal := fun bs => if bs = [] then none else some q
  validate := fun _ => true

/-- A variant of the concrete external functions whose structural
validation always fails, used to evaluate the validate-failure
rejection path. -/
def extRejFix (q : QueryRequest) : Ext where
  queryRequestDigest := fun e bs => e :: bs
  sign := fun d k => some (k :: d)
  unmarshal := fun bs => if bs = [] then none else some q
  validate := fun _ => false

/-- A permission entry allowing unsigned requests, one Solana account
call on chain 1 and one Solana PDA call on chain 1. -/
def entryFix : PermissionEntry :=
  ⟨"user1", true, ["solAccount:1:AcctA", "solPDA:1:ProgP"]⟩

/-- A permission table with the single API key `key1`. -/
def permsFix : Permissions := ⟨[("key1", entryFix)]⟩

/-- A fully authorized two-query request. -/
def reqAuthFix : QueryRequest :=
  ⟨1, [⟨1, .solanaAccount ⟨["AcctA"]⟩⟩, ⟨1, .solanaPda ⟨[⟨"ProgP"⟩]⟩⟩]⟩

/-- A single unauthorized Solana account query. -/
def reqUnauthFix : QueryRequest :=
  ⟨1, [⟨1, .solanaAccount ⟨["AcctB"]⟩⟩]⟩

/-- An unsupported query kind followed by an unauthorized Solana account
query. -/
def reqMixedFix : QueryRequest :=
  ⟨1, [⟨1, .unsupported⟩, ⟨1, .solanaAccount ⟨["AcctB"]⟩⟩]⟩

/-- An unauthorized Solana account query followed by an unsupported
query kind. -/
def reqUnauthFirstFix : QueryRequest :=
  ⟨1, [⟨1, .solanaAccount ⟨["AcctB"]⟩⟩, ⟨1, .unsupported⟩]⟩

/-- A Solana account query whose first account is authorized and whose
second is not. -/
def reqPartialFix : QueryRequest :=
  ⟨1, [⟨1, .solanaAccount ⟨["AcctA", "AcctB"]⟩⟩]⟩

/-- A two-chain request for the orchestrator scenarios: one sub-query on
chain 5 and one on chain 6. -/
def queriesFix : List PerChainQueryRequest :=
  [⟨5, .solanaAccount ⟨["AcctA"]⟩⟩, ⟨6, .solanaAccount ⟨["AcctB"]⟩⟩]

/-- A success message for sub-query `i` from chain `c` carrying
payload `p`. -/
def succMsg (i c p : Nat) : PerChainQueryResponseInternal :=
  ⟨i, c, .success, p⟩

/-- A retry-needed message for sub-query `i` from chain `c`. -/
def retryMsg (i c : Nat) : PerChainQueryResponseInternal :=
  ⟨i, c, .retryNeeded, 0⟩

/-- An orchestrator trace: sub-query 0 retries twice then succeeds,
sub-query 1 succeeds immediately, with interleaved arrival. -/
def respsFix : List PerChainQueryResponseInternal :=
  [retryMsg 0 5, succMsg 1 6 11, retryMsg 0 5, succMsg 0 5 10]

/-! Helper lemmas about the validator. -/

theorem validateRequestBody_signedRequest (ext : Ext) (e : PermissionEntry)
    (qr2 : SignedQueryRequest) :
    (validateRequestBody ext e qr2).signedRequest = qr2 := by
  unfold validateRequestBody
  cases ext.unmarshal qr2.queryRequest with
  | none => rfl
  | some q =>
    cases hv : ext.validate q <;> simp only [hv, if_true, if_false]
    · rfl
    · cases (validatePerChainQueries e q.perChainQueries).errMsg <;> rfl

theorem validateRequestBody_congr (ext : Ext) (e : PermissionEntry)
    (qr1 qr2 : SignedQueryRequest)
    (h : qr1.queryRequest = qr2.queryRequest) :
    (validateRequestBody ext e qr1).status
        = (validateRequestBody ext e qr2).status ∧
    (validateRequestBody ext e qr1).queryRequest
        = (validateRequestBody ext e qr2).queryRequest ∧
    (validateRequestBody ext e qr1).errMsg
        = (validateRequestBody ext e qr2).errMsg ∧
    (validateRequestBody ext e qr1).invalidReasons
        = (validateRequestBody ext e qr2).invalidReasons ∧
    (validateRequestBody ext e qr1).requestedCallsByChain
        = (validateRequestBody ext e qr2).requestedCallsByChain := by
  unfold validateRequestBody
  rw [h]
  cases ext.unmarshal qr2.queryRequest with
  | none => exact ⟨rfl, rfl, rfl, rfl, rfl⟩
  | some q =>
    cases hv : ext.validate q <;> simp only [hv, if_true, if_false]
    · exact ⟨rfl, rfl, rfl, rfl, rfl⟩
    · cases (validatePerChainQueries e q.perChainQueries).errMsg <;>
        exact ⟨rfl, rfl, rfl, rfl, rfl⟩

theorem validateRequest_entry_nonempty_sig (ext : Ext) (env : Nat)
    (perms : Permissions) (signerKey : Option Nat) (apiKey : String)
    (qr : SignedQueryRequest) (e : PermissionEntry)
    (hentry : perms.getUserEntry apiKey = some e)
    (hsig : qr.signature ≠ []) :
    validateRequest ext env perms signerKey apiKey qr
      = validateRequestBody ext e qr := by
  unfold validateRequest
  rw [hentry]
  simp only [List.length_eq_zero]
  rw [if_neg hsig]

theorem validateRequest_entry_cosigned (ext : Ext) (env : Nat)
    (perms : Permissions) (apiKey : String) (qr : SignedQueryRequest)
    (e : PermissionEntry) (k : Nat) (sig : Bytes)
    (hentry : perms.getUserEntry apiKey = some e)
    (hsig : qr.signature = [])
    (hau : e.allowUnsigned = true)
    (hsign : ext.sign (ext.queryRequestDigest env qr.queryRequest) k
      = some sig) :
    validateRequest ext env perms (some k) apiKey qr
      = validateRequestBody ext e { qr with signature := sig } := by
  unfold validateRequest
  rw [hentry]
  simp only [hsig, List.length_nil, if_true, hau, hsign]

theorem validateRequest_sign_failed (ext : Ext) (env : Nat)
    (perms : Permissions) (apiKey : String) (qr : SignedQueryRequest)
    (e : PermissionEntry) (k : Nat)
    (hentry : perms.getUserEntry apiKey = some e)
    (hsig : qr.signature = [])
    (hau : e.allowUnsigned = true)
    (hsign : ext.sign (ext.queryRequestDigest env qr.queryRequest) k
      = none) :
    validateRequest ext env perms (some k) apiKey qr
      = ⟨500, none, some "failed to sign request", qr,
          ["failed_to_sign_request"], []⟩ := by
  unfold validateRequest
  rw [hentry]
  simp only [hsig, List.length_nil, if_true, hau, hsign]

theorem validateRequest_unsigned_rejected (ext : Ext) (env : Nat)
    (perms : Permissions) (signerKey : Option Nat) (apiKey : String)
    (qr : SignedQueryRequest) (e : PermissionEntry)
    (hentry : perms.getUserEntry apiKey = some e)
    (hsig : qr.signature = [])
    (hno : e.allowUnsigned = false ∨ signerKey = none) :
    validateRequest ext env perms signerKey apiKey qr
      = ⟨400, none, some "request not signed", qr,
          ["request_not_signed"], []⟩ := by
  unfold validateRequest
  rw [hentry]
  simp only [hsig, List.length_nil, if_true]
  rcases hno with h | h
  · rw [h]
    cases signerKey <;> rfl
  · rw [h]

theorem validateRequestBody_unmarshal_none (ext : Ext) (e : PermissionEntry)
    (qr2 : SignedQueryRequest)
    (h : ext.unmarshal qr2.queryRequest = none) :
    validateRequestBody ext e qr2
      = ⟨400, none, some "failed to unmarshal request", qr2,
          ["failed_to_unmarshal_request"], []⟩ := by
  unfold validateRequestBody
  rw [h]

theorem validateRequestBody_validate_false (ext : Ext) (e : PermissionEntry)
    (qr2 : SignedQueryRequest) (q : QueryRequest)
    (hu : ext.unmarshal qr2.queryRequest = some q)
    (hv : ext.validate q = false) :
    validateRequestBody ext e qr2
      = ⟨400, none, some "failed to validate request", qr2,
          ["failed_to_validate_request"], []⟩ := by
  unfold validateRequestBody
  rw [hu]
  simp only [hv, if_false, Bool.false_eq_true]

theorem validateRequestBody_loop_fail (ext : Ext) (e : PermissionEntry)
    (qr2 : SignedQueryRequest) (q : QueryRequest) (msg : String)
    (hu : ext.unmarshal qr2.queryRequest = some q)
    (hv : ext.validate q = true)
    (hm : (validatePerChainQueries e q.perChainQueries).errMsg = some msg) :
    validateRequestBody ext e qr2
      = ⟨(validatePerChainQueries e q.perChainQueries).status, none,
          some msg, qr2,
          (validatePerChainQueries e q.perChainQueries).invalidReasons,
          (validatePerChainQueries e q.perChainQueries).requestedCallsByChain⟩
    := by
  unfold validateRequestBody
  rw [hu]
  simp only [hv, if_true]
  rw [hm]

theorem validateRequestBody_loop_ok (ext : Ext) (e : PermissionEntry)
    (qr2 : SignedQueryRequest) (q : QueryRequest)
    (hu : ext.unmarshal qr2.queryRequest = some q)
    (hv : ext.validate q = true)
    (hm : (validatePerChainQueries e q.perChainQueries).errMsg = none) :
    validateRequestBody ext e qr2
      = ⟨200, some q, none, qr2,
          (validatePerChainQueries e q.perChainQueries).invalidReasons,
          (validatePerChainQueries e q.perChainQueries).requestedCallsByChain⟩
    := by
  unfold validateRequestBody
  rw [hu]
  simp only [hv, if_true]
  rw [hm]

/-! Claims about the signature handling of `validateRequest`. -/

/-- C3: for every known caller submitting a request with a non-empty
signature, `validateRequest` never verifies that signature: two signed
requests that differ only in the content of their non-empty signature
bytes produce the same validation outcome (status, returned
`QueryRequest`, error, and metric increments), and each request's
signature field is left exactly as it arrived. -/
theorem c3_signature_never_verified (ext : Ext) (env : Nat)
    (perms : Permissions) (signerKey : Option Nat) (apiKey : String)
    (qr1 qr2 : SignedQueryRequest) (e : PermissionEntry)
    (hentry : perms.getUserEntry apiKey = some e)
    (hbytes : qr1.queryRequest = qr2.queryRequest)
    (h1 : qr1.signature ≠ []) (h2 : qr2.signature ≠ []) :
    (validateRequest ext env perms signerKey apiKey qr1).status
        = (validateRequest ext env perms signerKey apiKey qr2).status ∧
    (validateRequest ext env perms signerKey apiKey qr1).queryRequest
        = (validateRequest ext env perms signerKey apiKey qr2).queryRequest ∧
    (validateRequest ext env perms signerKey apiKey qr1).errMsg
        = (validateRequest ext env perms signerKey apiKey qr2).errMsg ∧
    (validateRequest ext env perms signerKey apiKey qr1).invalidReasons
        = (validateRequest ext env perms signerKey apiKey qr2).invalidReasons ∧
    (validateRequest ext env perms signerKey apiKey qr1).requestedCallsByChain
        = (validateRequest ext env perms signerKey apiKey
            qr2).requestedCallsByChain ∧
    (validateRequest ext env perms signerKey apiKey qr1).signedRequest
        = qr1 ∧
    (validateRequest ext env perms signerKey apiKey qr2).signedRequest
        = qr2 := by
  rw [validateRequest_entry_nonempty_sig ext env perms signerKey apiKey qr1 e
    hentry h1]
  rw [validateRequest_entry_nonempty_sig ext env perms signerKey apiKey qr2 e
    hentry h2]
  obtain ⟨hs, hq, he, hi, hr⟩ := validateRequestBody_congr ext e qr1 qr2 hbytes
  exact ⟨hs, hq, he, hi, hr, validateRequestBody_signedRequest ext e qr1,
    validateRequestBody_signedRequest ext e qr2⟩

/-- C3 witness: two concrete requests with the same bytes and different
non-empty signatures validate to the same outcome. -/
theorem c3_signature_never_verified_witness :
    (validateRequest (extFix reqAuthFix) 0 permsFix (some 7) "key1"
        ⟨[1], [2]⟩).status
      = (validateRequest (extFix reqAuthFix) 0 permsFix (some 7) "key1"
          ⟨[1], [3, 4]⟩).status :=
  (c3_signature_never_verified (extFix reqAuthFix) 0 permsFix (some 7) "key1"
    ⟨[1], [2]⟩ ⟨[1], [3, 4]⟩ entryFix (by decide) (by decide) (by decide)
    (by decide)).1

/-- C4: for a known caller's request arriving with an empty signature,
`validateRequest` rejects it when the caller lacks `allowUnsigned` or no
local signer key is configured; when both hold it signs the digest of
the raw request bytes with the local key and stores the resulting
signature into the request's `Signature` field. -/
theorem c4_unsigned_request_handling (ext : Ext) (env : Nat)
    (perms : Permissions) (signerKey : Option Nat) (apiKey : String)
    (qr : SignedQueryRequest) (e : PermissionEntry)
    (hentry : perms.getUserEntry apiKey = some e)
    (hsig : qr.signature = []) :
    ((e.allowUnsigned = false ∨ signerKey = none) →
      (validateRequest ext env perms signerKey apiKey qr).status = 400 ∧
      (validateRequest ext env perms signerKey apiKey qr).queryRequest
        = none) ∧
    (∀ k sig, signerKey = some k → e.allowUnsigned = true →
      ext.sign (ext.queryRequestDigest env qr.queryRequest) k = some sig →
      (validateRequest ext env perms signerKey apiKey qr).signedRequest
        = { qr with signature := sig }) := by
  constructor
  · intro hno
    rw [validateRequest_unsigned_rejected ext env perms signerKey apiKey qr e
      hentry hsig hno]
    exact ⟨rfl, rfl⟩
  · intro k sig hk hau hsign
    subst hk
    rw [validateRequest_entry_cosigned ext env perms apiKey qr e k sig
      hentry hsig hau hsign]
    exact validateRequestBody_signedRequest ext e { qr with signature := sig }

/-- C4 witness: a concrete unsigned request from an `allowUnsigned`
caller with a configured signer key ends up carrying the locally
computed signature. -/
theorem c4_unsigned_request_handling_witness :
    (validateRequest (extFix reqAuthFix) 0 permsFix (some 7) "key1"
        ⟨[1], []⟩).signedRequest
      = { queryRequest := [1], signature := [7, 0, 1] } :=
  (c4_unsigned_request_handling (extFix reqAuthFix) 0 permsFix (some 7)
      "key1" ⟨[1], []⟩ entryFix (by decide) (by decide)).2
    7 [7, 0, 1] rfl (by decide) (by decide)

/-- C9: the only mutation `validateRequest` makes to its signed-request
argument is filling in the signature when co-signing: the request bytes
in the returned signed request always equal the bytes that arrived, and
a request arriving with a non-empty signature is returned with both
fields unchanged. -/
theorem c9_frame_signed_request (ext : Ext) (env : Nat)
    (perms : Permissions) (signerKey : Option Nat) (apiKey : String)
    (qr : SignedQueryRequest) :
    (validateRequest ext env perms signerKey apiKey
        qr).signedRequest.queryRequest = qr.queryRequest ∧
    (qr.signature ≠ [] →
      (validateRequest ext env perms signerKey apiKey qr).signedRequest
        = qr) := by
  cases hentry : perms.getUserEntry apiKey with
  | none =>
    unfold validateRequest
    rw [hentry]
    exact ⟨rfl, fun _ => rfl⟩
  | some e =>
    by_cases hsig : qr.signature = []
    · refine ⟨?_, fun h => absurd hsig h⟩
      cases signerKey with
      | none =>
        rw [validateRequest_unsigned_rejected ext env perms none apiKey qr e
          hentry hsig (Or.inr rfl)]
      | some k =>
        cases hau : e.allowUnsigned with
        | false =>
          rw [validateRequest_unsigned_rejected ext env perms (some k)
            apiKey qr e hentry hsig (Or.inl hau)]
        | true =>
          cases hs : ext.sign (ext.queryRequestDigest env qr.queryRequest) k
            with
          | none =>
            rw [validateRequest_sign_failed ext env perms apiKey qr e k
              hentry hsig hau hs]
          | some sig =>
            rw [validateRequest_entry_cosigned ext env perms apiKey qr e k
              sig hentry hsig hau hs]
            rw [validateRequestBody_signedRequest ext e
              { qr with signature := sig }]
    · rw [validateRequest_entry_nonempty_sig ext env perms signerKey apiKey
        qr e hentry hsig]
      rw [validateRequestBody_signedRequest ext e qr]
      exact ⟨rfl, fun _ => rfl⟩

/-- C9 witness: a concrete signed request comes back with both fields
untouched. -/
theorem c9_frame_signed_request_witness :
    (validateRequest (extFix reqAuthFix) 0 permsFix (some 7) "key1"
        ⟨[1], [2]⟩).signedRequest = ⟨[1], [2]⟩ :=
  (c9_frame_signed_request (extFix reqAuthFix) 0 permsFix (some 7) "key1"
    ⟨[1], [2]⟩).2 (by decide)

/-- C10: for an `allowUnsigned` caller with a configured signer key whose
unsigned request is subsequently rejected — whether because its bytes
fail to unmarshal or because the deserialized request fails structural
validation — `validateRequest` has already co-signed: whatever the
outcome, the caller's request is left mutated with its signature field
holding the locally computed signature instead of the empty value it
arrived with, and on either rejection the error is returned with that
mutation in place. -/
theorem c10_cosign_persists_on_rejection (ext : Ext) (env : Nat)
    (perms : Permissions) (apiKey : String) (qr : SignedQueryRequest)
    (e : PermissionEntry) (k : Nat) (sig : Bytes)
    (hentry : perms.getUserEntry apiKey = some e)
    (hsig : qr.signature = [])
    (hau : e.allowUnsigned = true)
    (hsign : ext.sign (ext.queryRequestDigest env qr.queryRequest) k
      = some sig) :
    (validateRequest ext env perms (some k) apiKey qr).signedRequest
      = { qr with signature := sig } ∧
    (ext.unmarshal qr.queryRequest = none →
      (validateRequest ext env perms (some k) apiKey qr).status = 400 ∧
      (validateRequest ext env perms (some k) apiKey qr).queryRequest
        = none ∧
      (validateRequest ext env perms (some k) apiKey qr).errMsg
        = some "failed to unmarshal request") ∧
    (∀ q, ext.unmarshal qr.queryRequest = some q →
      ext.validate q = false →
      (validateRequest ext env perms (some k) apiKey qr).status = 400 ∧
      (validateRequest ext env perms (some k) apiKey qr).queryRequest
        = none ∧
      (validateRequest ext env perms (some k) apiKey qr).errMsg
        = some "failed to validate request") := by
  rw [validateRequest_entry_cosigned ext env perms apiKey qr e k sig
    hentry hsig hau hsign]
  refine ⟨validateRequestBody_signedRequest ext e
    { qr with signature := sig }, ?_, ?_⟩
  · intro hunm
    rw [validateRequestBody_unmarshal_none ext e
      { qr with signature := sig } hunm]
    exact ⟨rfl, rfl, rfl⟩
  · intro q hu hv
    rw [validateRequestBody_validate_false ext e
      { qr with signature := sig } q hu hv]
    exact ⟨rfl, rfl, rfl⟩

/-- C10 witness: a concrete unsigned request whose bytes fail to
unmarshal, and another whose deserialized request fails validation, are
both rejected with the co-signature left in place. -/
theorem c10_cosign_persists_on_rejection_witness :
    (validateRequest (extFix reqAuthFix) 0 permsFix (some 7) "key1"
        ⟨[], []⟩).status = 400 ∧
    (validateRequest (extFix reqAuthFix) 0 permsFix (some 7) "key1"
        ⟨[], []⟩).signedRequest
      = { queryRequest := [], signature := [7, 0] } ∧
    (validateRequest (extRejFix reqAuthFix) 0 permsFix (some 7) "key1"
        ⟨[1], []⟩).status = 400 ∧
    (validateRequest (extRejFix reqAuthFix) 0 permsFix (some 7) "key1"
        ⟨[1], []⟩).signedRequest
      = { queryRequest := [1], signature := [7, 0, 1] } := by
  obtain ⟨ha1, ha2, _⟩ := c10_cosign_persists_on_rejection
    (extFix reqAuthFix) 0 permsFix "key1" ⟨[], []⟩ entryFix 7 [7, 0]
    (by decide) (by decide) (by decide) (by decide)
  obtain ⟨hb1, _, hb3⟩ := c10_cosign_persists_on_rejection
    (extRejFix reqAuthFix) 0 permsFix "key1" ⟨[1], []⟩ entryFix 7 [7, 0, 1]
    (by decide) (by decide) (by decide) (by decide)
  exact ⟨(ha2 (by decide)).1, ha1,
    (hb3 reqAuthFix (by decide) (by decide)).1, hb1⟩

/-! Lemmas about the authorization loops. -/

theorem acctGo_ok (e : PermissionEntry) (tag : String) (c : Nat)
    (accts : List String)
    (h : ∀ a ∈ accts, callKey tag c a ∈ e.allowedCalls) :
    validateSolanaAccountQuery.go e tag c accts
      = ⟨200, none, [], List.replicate accts.length c⟩ := by
  induction accts with
  | nil => rfl
  | cons a rest ih =>
    unfold validateSolanaAccountQuery.go
    rw [if_pos (h a (List.mem_cons_self a rest))]
    rw [ih (fun x hx => h x (List.mem_cons_of_mem a hx))]
    rfl

theorem acctGo_fail (e : PermissionEntry) (tag : String) (c : Nat)
    (accts : List String)
    (h : ∃ a ∈ accts, callKey tag c a ∉ e.allowedCalls) :
    (validateSolanaAccountQuery.go e tag c accts).status = 403 ∧
    (validateSolanaAccountQuery.go e tag c accts).errMsg.isSome = true ∧
    (validateSolanaAccountQuery.go e tag c accts).invalidReasons
      = ["call_not_authorized"] := by
  induction accts with
  | nil =>
    rcases h with ⟨a, ha, _⟩
    cases ha
  | cons a rest ih =>
    unfold validateSolanaAccountQuery.go
    by_cases hk : callKey tag c a ∈ e.allowedCalls
    · rw [if_pos hk]
      refine ih ?_
      rcases h with ⟨x, hx, hnx⟩
      rcases List.mem_cons.mp hx with rfl | hx'
      · exact absurd hk hnx
      · exact ⟨x, hx', hnx⟩
    · rw [if_neg hk]
      exact ⟨rfl, rfl, rfl⟩

theorem pdaGo_ok (e : PermissionEntry) (tag : String) (c : Nat)
    (pdas : List SolanaPda)
    (h : ∀ p ∈ pdas, callKey tag c p.programAddress ∈ e.allowedCalls) :
    validateSolanaPdaQuery.go e tag c pdas
      = ⟨200, none, [], List.replicate pdas.length c⟩ := by
  induction pdas with
  | nil => rfl
  | cons p rest ih =>
    unfold validateSolanaPdaQuery.go
    rw [if_pos (h p (List.mem_cons_self p rest))]
    rw [ih (fun x hx => h x (List.mem_cons_of_mem p hx))]
    rfl

theorem pdaGo_fail (e : PermissionEntry) (tag : String) (c : Nat)
    (pdas : List SolanaPda)
    (h : ∃ p ∈ pdas, callKey tag c p.programAddress ∉ e.allowedCalls) :
    (validateSolanaPdaQuery.go e tag c pdas).status = 403 ∧
    (validateSolanaPdaQuery.go e tag c pdas).errMsg.isSome = true ∧
    (validateSolanaPdaQuery.go e tag c pdas).invalidReasons
      = ["call_not_authorized"] := by
  induction pdas with
  | nil =>
    rcases h with ⟨p, hp, _⟩
    cases hp
  | cons p rest ih =>
    unfold validateSolanaPdaQuery.go
    by_cases hk : callKey tag c p.programAddress ∈ e.allowedCalls
    · rw [if_pos hk]
      refine ih ?_
      rcases h with ⟨x, hx, hnx⟩
      rcases List.mem_cons.mp hx with rfl | hx'
      · exact absurd hk hnx
      · exact ⟨x, hx', hnx⟩
    · rw [if_neg hk]
      exact ⟨rfl, rfl, rfl⟩

theorem subValidateQuery_ok (e : PermissionEntry)
    (pcq : PerChainQueryRequest)
    (hs : pcqSupported pcq) (ha : pcqAuthorized e pcq) :
    subValidateQuery e pcq
      = ⟨200, none, [], List.replicate (pcqNumCalls pcq) pcq.chainId⟩ := by
  rcases pcq with ⟨c, q | q | _⟩
  · unfold subValidateQuery validateSolanaAccountQuery
    exact acctGo_ok e "solAccount" c q.accounts ha
  · unfold subValidateQuery validateSolanaPdaQuery
    exact pdaGo_ok e "solPDA" c q.pdas ha
  · exact absurd rfl hs

theorem subValidateQuery_unauth (e : PermissionEntry)
    (pcq : PerChainQueryRequest)
    (hs : pcqSupported pcq) (hna : ¬ pcqAuthorized e pcq) :
    (subValidateQuery e pcq).status = 403 ∧
    (subValidateQuery e pcq).errMsg.isSome = true ∧
    (subValidateQuery e pcq).invalidReasons = ["call_not_authorized"] := by
  rcases pcq with ⟨c, q | q | _⟩
  · refine acctGo_fail e "solAccount" c q.accounts ?_
    by_contra hno
    push_neg at hno
    exact hna (fun a haq => hno a haq)
  · refine pdaGo_fail e "solPDA" c q.pdas ?_
    by_contra hno
    push_neg at hno
    exact hna (fun p hpq => hno p hpq)
  · exact absurd rfl hs

theorem subValidateQuery_unsupported (e : PermissionEntry)
    (pcq : PerChainQueryRequest)
    (hu : ¬ pcqSupported pcq) :
    subValidateQuery e pcq
      = ⟨400, some "unsupported query type",
          ["unsupported_query_type"], []⟩ := by
  rcases pcq with ⟨c, q | q | _⟩
  · exact absurd (fun h => ChainSpecificQuery.noConfusion h) hu
  · exact absurd (fun h => ChainSpecificQuery.noConfusion h) hu
  · rfl

theorem validatePerChainQueries_cons_fail (e : PermissionEntry)
    (pcq : PerChainQueryRequest) (rest : List PerChainQueryRequest)
    (h : (subValidateQuery e pcq).errMsg.isSome = true) :
    validatePerChainQueries e (pcq :: rest) = subValidateQuery e pcq := by
  obtain ⟨m, hm⟩ := Option.isSome_iff_exists.mp h
  unfold validatePerChainQueries
  simp only [hm]

theorem validatePerChainQueries_cons_ok (e : PermissionEntry)
    (pcq : PerChainQueryRequest) (rest : List PerChainQueryRequest)
    (h : (subValidateQuery e pcq).errMsg = none) :
    validatePerChainQueries e (pcq :: rest)
      = { validatePerChainQueries e rest with
          invalidReasons := (subValidateQuery e pcq).invalidReasons
            ++ (validatePerChainQueries e rest).invalidReasons,
          requestedCallsByChain :=
            (subValidateQuery e pcq).requestedCallsByChain
              ++ (validatePerChainQueries e rest).requestedCallsByChain }
    := by
  conv_lhs => unfold validatePerChainQueries
  simp only [h]

theorem validatePerChainQueries_ok (e : PermissionEntry)
    (pcqs : List PerChainQueryRequest)
    (h : ∀ pcq ∈ pcqs, pcqSupported pcq ∧ pcqAuthorized e pcq) :
    (validatePerChainQueries e pcqs).errMsg = none ∧
    (validatePerChainQueries e pcqs).status = 200 ∧
    (validatePerChainQueries e pcqs).invalidReasons = [] ∧
    (validatePerChainQueries e pcqs).requestedCallsByChain.length
      = totalCalls pcqs := by
  induction pcqs with
  | nil => exact ⟨rfl, rfl, rfl, rfl⟩
  | cons pcq rest ih =>
    obtain ⟨hs, ha⟩ := h pcq (List.mem_cons_self pcq rest)
    have hsub := subValidateQuery_ok e pcq hs ha
    rw [validatePerChainQueries_cons_ok e pcq rest (by rw [hsub])]
    obtain ⟨h1, h2, h3, h4⟩ := ih (fun x hx => h x (List.mem_cons_of_mem pcq hx))
    refine ⟨h1, h2, ?_, ?_⟩
    · rw [hsub, h3]
      rfl
    · rw [hsub]
      simp only [List.length_append, List.length_replicate, h4, totalCalls,
        List.map_cons, List.sum_cons]

theorem validatePerChainQueries_unauth (e : PermissionEntry)
    (pcqs : List PerChainQueryRequest)
    (hsupp : ∀ pcq ∈ pcqs, pcqSupported pcq)
    (hex : ∃ pcq ∈ pcqs, ¬ pcqAuthorized e pcq) :
    (validatePerChainQueries e pcqs).status = 403 ∧
    (validatePerChainQueries e pcqs).errMsg.isSome = true := by
  induction pcqs with
  | nil =>
    rcases hex with ⟨x, hx, _⟩
    cases hx
  | cons pcq rest ih =>
    have hs := hsupp pcq (List.mem_cons_self pcq rest)
    by_cases ha : pcqAuthorized e pcq
    · have hsub := subValidateQuery_ok e pcq hs ha
      rw [validatePerChainQueries_cons_ok e pcq rest (by rw [hsub])]
      refine ih (fun x hx => hsupp x (List.mem_cons_of_mem pcq hx)) ?_
      rcases hex with ⟨x, hx, hnx⟩
      rcases List.mem_cons.mp hx with rfl | hx'
      · exact absurd ha hnx
      · exact ⟨x, hx', hnx⟩
    · obtain ⟨h1, h2, _⟩ := subValidateQuery_unauth e pcq hs ha
      rw [validatePerChainQueries_cons_fail e pcq rest h2]
      exact ⟨h1, h2⟩

theorem validatePerChainQueries_unsupported (e : PermissionEntry)
    (pcqs : List PerChainQueryRequest)
    (hauth : ∀ pcq ∈ pcqs, pcqAuthorized e pcq)
    (hex : ∃ pcq ∈ pcqs, ¬ pcqSupported pcq) :
    (validatePerChainQueries e pcqs).status = 400 ∧
    (validatePerChainQueries e pcqs).errMsg.isSome = true := by
  induction pcqs with
  | nil =>
    rcases hex with ⟨x, hx, _⟩
    cases hx
  | cons pcq rest ih =>
    by_cases hs : pcqSupported pcq
    · have ha := hauth pcq (List.mem_cons_self pcq rest)
      have hsub := subValidateQuery_ok e pcq hs ha
      rw [validatePerChainQueries_cons_ok e pcq rest (by rw [hsub])]
      refine ih (fun x hx => hauth x (List.mem_cons_of_mem pcq hx)) ?_
      rcases hex with ⟨x, hx, hnx⟩
      rcases List.mem_cons.mp hx with rfl | hx'
      · exact absurd hs hnx
      · exact ⟨x, hx', hnx⟩
    · have hsub := subValidateQuery_unsupported e pcq hs
      rw [validatePerChainQueries_cons_fail e pcq rest (by rw [hsub]; rfl)]
      rw [hsub]
      exact ⟨rfl, rfl⟩

theorem validatePerChainQueries_invariant (e : PermissionEntry)
    (pcqs : List PerChainQueryRequest) :
    ((validatePerChainQueries e pcqs).errMsg = none ∧
      (validatePerChainQueries e pcqs).status = 200 ∧
      (validatePerChainQueries e pcqs).invalidReasons = []) ∨
    ((validatePerChainQueries e pcqs).errMsg.isSome = true ∧
      (validatePerChainQueries e pcqs).invalidReasons.length = 1 ∧
      (validatePerChainQueries e pcqs).status ≠ 200) := by
  induction pcqs with
  | nil => exact Or.inl ⟨rfl, rfl, rfl⟩
  | cons pcq rest ih =>
    by_cases ha : pcqAuthorized e pcq
    · by_cases hs : pcqSupported pcq
      · have hsub := subValidateQuery_ok e pcq hs ha
        rw [validatePerChainQueries_cons_ok e pcq rest (by rw [hsub])]
        rcases ih with ⟨h1, h2, h3⟩ | ⟨h1, h2, h3⟩
        · refine Or.inl ⟨h1, h2, ?_⟩
          rw [hsub, h3]
          rfl
        · refine Or.inr ⟨h1, ?_, h3⟩
          rw [hsub]
          simpa using h2
      · have hsub := subValidateQuery_unsupported e pcq hs
        rw [validatePerChainQueries_cons_fail e pcq rest (by rw [hsub]; rfl)]
        rw [hsub]
        exact Or.inr ⟨rfl, rfl, by decide⟩
    · by_cases hs : pcqSupported pcq
      · obtain ⟨h1, h2, h3⟩ := subValidateQuery_unauth e pcq hs ha
        rw [validatePerChainQueries_cons_fail e pcq rest h2]
        refine Or.inr ⟨h2, ?_, ?_⟩
        · rw [h3]
          rfl
        · rw [h1]
          decide
      · have hsub := subValidateQuery_unsupported e pcq hs
        rw [validatePerChainQueries_cons_fail e pcq rest (by rw [hsub]; rfl)]
        rw [hsub]
        exact Or.inr ⟨rfl, rfl, by decide⟩

theorem acctGo_len (e : PermissionEntry) (tag : String) (c : Nat)
    (accts : List String)
    (h : (validateSolanaAccountQuery.go e tag c accts).errMsg = none) :
    (validateSolanaAccountQuery.go e tag c accts).requestedCallsByChain.length
      = accts.length := by
  induction accts with
  | nil => rfl
  | cons a rest ih =>
    unfold validateSolanaAccountQuery.go at h ⊢
    by_cases hk : callKey tag c a ∈ e.allowedCalls
    · rw [if_pos hk] at h ⊢
      have := ih h
      simpa using this
    · rw [if_neg hk] at h
      cases h

theorem pdaGo_len (e : PermissionEntry) (tag : String) (c : Nat)
    (pdas : List SolanaPda)
    (h : (validateSolanaPdaQuery.go e tag c pdas).errMsg = none) :
    (validateSolanaPdaQuery.go e tag c pdas).requestedCallsByChain.length
      = pdas.length := by
  induction pdas with
  | nil => rfl
  | cons p rest ih =>
    unfold validateSolanaPdaQuery.go at h ⊢
    by_cases hk : callKey tag c p.programAddress ∈ e.allowedCalls
    · rw [if_pos hk] at h ⊢
      have := ih h
      simpa using this
    · rw [if_neg hk] at h
      cases h

theorem subValidateQuery_len (e : PermissionEntry)
    (pcq : PerChainQueryRequest)
    (h : (subValidateQuery e pcq).errMsg = none) :
    (subValidateQuery e pcq).requestedCallsByChain.length
      = pcqNumCalls pcq := by
  rcases pcq with ⟨c, q | q | _⟩
  · exact acctGo_len e "solAccount" c q.accounts h
  · exact pdaGo_len e "solPDA" c q.pdas h
  · cases h

theorem validatePerChainQueries_len (e : PermissionEntry)
    (pcqs : List PerChainQueryRequest)
    (h : (validatePerChainQueries e pcqs).errMsg = none) :
    (validatePerChainQueries e pcqs).requestedCallsByChain.length
      = totalCalls pcqs := by
  induction pcqs with
  | nil => rfl
  | cons pcq rest ih =>
    by_cases hsub : (subValidateQuery e pcq).errMsg = none
    · rw [validatePerChainQueries_cons_ok e pcq rest hsub] at h ⊢
      have hr := ih h
      have hl := subValidateQuery_len e pcq hsub
      simp only [List.length_append, hr, hl, totalCalls, List.map_cons,
        List.sum_cons]
    · rw [validatePerChainQueries_cons_fail e pcq rest
        (Option.ne_none_iff_isSome.mp hsub)] at h
      exact absurd h hsub

theorem validateRequestBody_metrics (ext : Ext) (e : PermissionEntry)
    (qr2 : SignedQueryRequest) :
    ((validateRequestBody ext e qr2).status ≠ 200 →
      (validateRequestBody ext e qr2).invalidReasons.length = 1) ∧
    ((validateRequestBody ext e qr2).status = 200 →
      (validateRequestBody ext e qr2).invalidReasons = []) ∧
    (∀ q, (validateRequestBody ext e qr2).queryRequest = some q →
      (validateRequestBody ext e qr2).requestedCallsByChain.length
        = totalCalls q.perChainQueries) := by
  cases hu : ext.unmarshal qr2.queryRequest with
  | none =>
    rw [validateRequestBody_unmarshal_none ext e qr2 hu]
    exact ⟨fun _ => rfl, fun h => by simp at h, fun q hq => by cases hq⟩
  | some q =>
    cases hv : ext.validate q with
    | false =>
      rw [validateRequestBody_validate_false ext e qr2 q hu hv]
      exact ⟨fun _ => rfl, fun h => by simp at h,
        fun q' hq => by cases hq⟩
    | true =>
      rcases validatePerChainQueries_invariant e q.perChainQueries with
        ⟨h1, h2, h3⟩ | ⟨h1, h2, h3⟩
      · rw [validateRequestBody_loop_ok ext e qr2 q hu hv h1]
        refine ⟨fun h => absurd rfl h, fun _ => h3, fun q' hq => ?_⟩
        cases hq
        exact validatePerChainQueries_len e q.perChainQueries h1
      · obtain ⟨m, hm⟩ := Option.isSome_iff_exists.mp h1
        rw [validateRequestBody_loop_fail ext e qr2 q m hu hv hm]
        exact ⟨fun _ => h2, fun h => absurd h h3, fun q' hq => by cases hq⟩

/-! Claims about the authorization and metric behavior of
`validateRequest`. -/

/-- C1 counterexample: a request containing an unauthorized Solana
account call is not always rejected with 403 — when an unsupported query
kind precedes the unauthorized call, the request is rejected with 400
instead. -/
theorem c1_counterexample :
    (∃ pcq ∈ reqMixedFix.perChainQueries, ¬ pcqAuthorized entryFix pcq) ∧
    permsFix.getUserEntry "key1" = some entryFix ∧
    (extFix reqMixedFix).unmarshal [1] = some reqMixedFix ∧
    (validateRequest (extFix reqMixedFix) 0 permsFix (some 7) "key1"
      ⟨[1], [2]⟩).status ≠ 403 := by
  decide

/-- C1 (amended): for every signed request from a known caller whose
deserialized queries are all of supported kinds, if any single call (any
Solana account in a `SolanaAccount` query, or any PDA program address in
a `SolanaPda` query) is missing from the caller's authorized call set,
`validateRequest` rejects the entire request with HTTP 403 and returns
no `QueryRequest`, so no sub-query is ever dispatched; authorization is
all-or-nothing per request. -/
theorem c1_unauthorized_call_rejects_request (ext : Ext) (env : Nat)
    (perms : Permissions) (signerKey : Option Nat) (apiKey : String)
    (qr : SignedQueryRequest) (e : PermissionEntry) (q : QueryRequest)
    (hentry : perms.getUserEntry apiKey = some e)
    (hsig : qr.signature ≠ [])
    (hunm : ext.unmarshal qr.queryRequest = some q)
    (hval : ext.validate q = true)
    (hsupp : ∀ pcq ∈ q.perChainQueries, pcqSupported pcq)
    (hex : ∃ pcq ∈ q.perChainQueries, ¬ pcqAuthorized e pcq) :
    (validateRequest ext env perms signerKey apiKey qr).status = 403 ∧
    (validateRequest ext env perms signerKey apiKey qr).queryRequest
      = none := by
  rw [validateRequest_entry_nonempty_sig ext env perms signerKey apiKey qr e
    hentry hsig]
  obtain ⟨h403, hsome⟩ :=
    validatePerChainQueries_unauth e q.perChainQueries hsupp hex
  obtain ⟨m, hm⟩ := Option.isSome_iff_exists.mp hsome
  rw [validateRequestBody_loop_fail ext e qr q m hunm hval hm]
  exact ⟨h403, rfl⟩

/-- C1 witness: a concrete request with a single unauthorized Solana
account call is rejected with 403 and no `QueryRequest`. -/
theorem c1_unauthorized_call_rejects_request_witness :
    (validateRequest (extFix reqUnauthFix) 0 permsFix (some 7) "key1"
      ⟨[1], [2]⟩).status = 403 ∧
    (validateRequest (extFix reqUnauthFix) 0 permsFix (some 7) "key1"
      ⟨[1], [2]⟩).queryRequest = none :=
  c1_unauthorized_call_rejects_request (extFix reqUnauthFix) 0 permsFix
    (some 7) "key1" ⟨[1], [2]⟩ entryFix reqUnauthFix (by decide)
    (by decide) (by decide) (by decide) (by decide) (by decide)

/-- C5 counterexample: a request containing an unsupported query kind is
not always rejected with 400 — when an unauthorized Solana account call
precedes the unsupported query, the request is rejected with 403
instead. -/
theorem c5_counterexample :
    (∃ pcq ∈ reqUnauthFirstFix.perChainQueries, ¬ pcqSupported pcq) ∧
    (validateRequest (extFix reqUnauthFirstFix) 0 permsFix (some 7) "key1"
      ⟨[1], [2]⟩).status ≠ 400 := by
  decide

/-- C5 (amended): for every signed request from a known caller, if the
request bytes fail to deserialize, or the deserialized request fails
structural validation, or the request contains an unsupported query kind
while every supported call in it is authorized, then `validateRequest`
returns HTTP 400 with a generic error and no `QueryRequest`, so no
such request is ever dispatched. -/
theorem c5_malformed_request_rejected (ext : Ext) (env : Nat)
    (perms : Permissions) (signerKey : Option Nat) (apiKey : String)
    (qr : SignedQueryRequest) (e : PermissionEntry)
    (hentry : perms.getUserEntry apiKey = some e)
    (hsig : qr.signature ≠ []) :
    (ext.unmarshal qr.queryRequest = none →
      (validateRequest ext env perms signerKey apiKey qr).status = 400 ∧
      (validateRequest ext env perms signerKey apiKey qr).queryRequest
        = none ∧
      (validateRequest ext env perms signerKey apiKey
        qr).errMsg.isSome = true) ∧
    (∀ q, ext.unmarshal qr.queryRequest = some q →
      ext.validate q = false →
      (validateRequest ext env perms signerKey apiKey qr).status = 400 ∧
      (validateRequest ext env perms signerKey apiKey qr).queryRequest
        = none ∧
      (validateRequest ext env perms signerKey apiKey
        qr).errMsg.isSome = true) ∧
    (∀ q, ext.unmarshal qr.queryRequest = some q →
      ext.validate q = true →
      (∀ pcq ∈ q.perChainQueries, pcqAuthorized e pcq) →
      (∃ pcq ∈ q.perChainQueries, ¬ pcqSupported pcq) →
      (validateRequest ext env perms signerKey apiKey qr).status = 400 ∧
      (validateRequest ext env perms signerKey apiKey qr).queryRequest
        = none ∧
      (validateRequest ext env perms signerKey apiKey
        qr).errMsg.isSome = true) := by
  rw [validateRequest_entry_nonempty_sig ext env perms signerKey apiKey qr e
    hentry hsig]
  refine ⟨?_, ?_, ?_⟩
  · intro hu
    rw [validateRequestBody_unmarshal_none ext e qr hu]
    exact ⟨rfl, rfl, rfl⟩
  · intro q hu hv
    rw [validateRequestBody_validate_false ext e qr q hu hv]
    exact ⟨rfl, rfl, rfl⟩
  · intro q hu hv hauth hex
    obtain ⟨h400, hsome⟩ :=
      validatePerChainQueries_unsupported e q.perChainQueries hauth hex
    obtain ⟨m, hm⟩ := Option.isSome_iff_exists.mp hsome
    rw [validateRequestBody_loop_fail ext e qr q m hu hv hm]
    exact ⟨h400, rfl, rfl⟩

/-- C5 witness: a concrete request whose bytes fail to deserialize is
rejected with 400 and no `QueryRequest`. -/
theorem c5_malformed_request_rejected_witness :
    (validateRequest (extFix reqAuthFix) 0 permsFix (some 7) "key1"
      ⟨[], [2]⟩).status = 400 ∧
    (validateRequest (extFix reqAuthFix) 0 permsFix (some 7) "key1"
      ⟨[], [2]⟩).queryRequest = none ∧
    (validateRequest (extFix reqAuthFix) 0 permsFix (some 7) "key1"
      ⟨[], [2]⟩).errMsg.isSome = true :=
  (c5_malformed_request_rejected (extFix reqAuthFix) 0 permsFix (some 7)
    "key1" ⟨[], [2]⟩ entryFix (by decide) (by decide)).1 (by decide)

/-- C8 counterexample: the per-chain requested-calls counter is not
incremented only for accepted requests — a request whose first account
is authorized and whose second is not is rejected, yet the counter was
already pegged once for the first account. -/
theorem c8_counterexample :
    (validateRequest (extFix reqPartialFix) 0 permsFix (some 7) "key1"
      ⟨[1], [2]⟩).status ≠ 200 ∧
    (validateRequest (extFix reqPartialFix) 0 permsFix (some 7) "key1"
      ⟨[1], [2]⟩).requestedCallsByChain ≠ [] := by
  decide

/-- C8 (amended): every rejection path of `validateRequest` increments
the invalid-request failure counter exactly once (with the label of that
rejection's reason), and the accepted path increments it never; the
per-chain requested-calls counter is incremented once per authorized
call processed — on the accepted path exactly once per call of the
request — but calls processed before a later rejection also peg it, so
it is not incremented only for accepted requests. -/
theorem c8_rejections_counted_once (ext : Ext) (env : Nat)
    (perms : Permissions) (signerKey : Option Nat) (apiKey : String)
    (qr : SignedQueryRequest) :
    ((validateRequest ext env perms signerKey apiKey qr).status ≠ 200 →
      (validateRequest ext env perms signerKey apiKey
        qr).invalidReasons.length = 1) ∧
    ((validateRequest ext env perms signerKey apiKey qr).status = 200 →
      (validateRequest ext env perms signerKey apiKey qr).invalidReasons
        = []) ∧
    (∀ q, (validateRequest ext env perms signerKey apiKey qr).queryRequest
        = some q →
      (validateRequest ext env perms signerKey apiKey
        qr).requestedCallsByChain.length = totalCalls q.perChainQueries)
    := by
  cases hentry : perms.getUserEntry apiKey with
  | none =>
    unfold validateRequest
    rw [hentry]
    exact ⟨fun _ => rfl, fun h => by simp at h,
      fun q hq => by cases hq⟩
  | some e =>
    by_cases hsig : qr.signature = []
    · cases signerKey with
      | none =>
        rw [validateRequest_unsigned_rejected ext env perms none apiKey qr e
          hentry hsig (Or.inr rfl)]
        exact ⟨fun _ => rfl, fun h => by simp at h,
          fun q hq => by cases hq⟩
      | some k =>
        cases hau : e.allowUnsigned with
        | false =>
          rw [validateRequest_unsigned_rejected ext env perms (some k)
            apiKey qr e hentry hsig (Or.inl hau)]
          exact ⟨fun _ => rfl, fun h => by simp at h,
            fun q hq => by cases hq⟩
        | true =>
          cases hs : ext.sign (ext.queryRequestDigest env qr.queryRequest) k
            with
          | none =>
            rw [validateRequest_sign_failed ext env perms apiKey qr e k
              hentry hsig hau hs]
            exact ⟨fun _ => rfl, fun h => by simp at h,
              fun q hq => by cases hq⟩
          | some sig =>
            rw [validateRequest_entry_cosigned ext env perms apiKey qr e k
              sig hentry hsig hau hs]
            exact validateRequestBody_metrics ext e
              { qr with signature := sig }
    · rw [validateRequest_entry_nonempty_sig ext env perms signerKey apiKey
        qr e hentry hsig]
      exact validateRequestBody_metrics ext e qr

/-- C8 witness: on a concrete accepted request no invalid-request label
is pegged and the per-chain counter is pegged once per call; on a
concrete rejected request exactly one invalid-request label is
pegged. -/
theorem c8_rejections_counted_once_witness :
    (validateRequest (extFix reqAuthFix) 0 permsFix (some 7) "key1"
      ⟨[1], [2]⟩).invalidReasons = [] ∧
    (validateRequest (extFix reqAuthFix) 0 permsFix (some 7) "key1"
      ⟨[1], [2]⟩).requestedCallsByChain.length
      = totalCalls reqAuthFix.perChainQueries ∧
    (validateRequest (extFix reqUnauthFix) 0 permsFix (some 7) "key2"
      ⟨[1], [2]⟩).invalidReasons.length = 1 :=
  ⟨(c8_rejections_counted_once (extFix reqAuthFix) 0 permsFix (some 7)
      "key1" ⟨[1], [2]⟩).2.1 (by decide),
   (c8_rejections_counted_once (extFix reqAuthFix) 0 permsFix (some 7)
      "key1" ⟨[1], [2]⟩).2.2 reqAuthFix (by decide),
   (c8_rejections_counted_once (extFix reqUnauthFix) 0 permsFix (some 7)
      "key2" ⟨[1], [2]⟩).1 (by decide)⟩

/-! Lemmas about the orchestrator state machine. -/

theorem processResponse_running_cases (pq : PendingQuery)
    (resp : PerChainQueryResponseInternal) (pq' : PendingQuery)
    (h : processResponse pq resp = .running pq') :
    (pq' = pq ∧
      (∀ st, pq.perChainState[resp.requestIdx]? = some st →
        resp.chainId = st.chainId ∧ resp.status = .success ∧
        st.result.isSome = true)) ∨
    (∃ st, pq.perChainState[resp.requestIdx]? = some st ∧
      resp.chainId = st.chainId ∧
      ((resp.status = .success ∧ st.result = none ∧
        pq' = ⟨pq.perChainState.set resp.requestIdx
          { st with result := some ⟨resp.chainId, resp.response⟩ }⟩) ∨
       (resp.status = .retryNeeded ∧
        pq' = ⟨pq.perChainState.set resp.requestIdx
          { st with retryCount := st.retryCount + 1,
                    dispatchCount := st.dispatchCount + 1 }⟩))) := by
  unfold processResponse at h
  split at h
  next hget =>
    cases h
    exact Or.inl ⟨rfl, fun st hst => by rw [hget] at hst; cases hst⟩
  next st hget =>
    split at h
    next hc => cases h
    next hc =>
      have hceq : resp.chainId = st.chainId := not_not.mp hc
      split at h
      next hstat =>
        split at h
        next r hres =>
          cases h
          refine Or.inl ⟨rfl, fun st' hst' => ?_⟩
          rw [hget] at hst'
          cases hst'
          exact ⟨hceq, hstat, by rw [hres]; rfl⟩
        next hres =>
          cases h
          exact Or.inr ⟨st, hget, hceq, Or.inl ⟨hstat, hres, rfl⟩⟩
      next hstat =>
        cases h
        exact Or.inr ⟨st, hget, hceq, Or.inr ⟨hstat, rfl⟩⟩
      next hstat => cases h

theorem processResponse_running_length (pq : PendingQuery)
    (resp : PerChainQueryResponseInternal) (pq' : PendingQuery)
    (h : processResponse pq resp = .running pq') :
    pq'.perChainState.length = pq.perChainState.length := by
  rcases processResponse_running_cases pq resp pq' h with
    ⟨rfl, _⟩ | ⟨st, hget, hchain, hcase⟩
  · rfl
  · rcases hcase with ⟨_, _, rfl⟩ | ⟨_, rfl⟩
    · exact List.length_set ..
    · exact List.length_set ..

theorem processResponse_running_chain (pq : PendingQuery)
    (resp : PerChainQueryResponseInternal) (pq' : PendingQuery)
    (h : processResponse pq resp = .running pq') :
    ∀ (j : Nat) (st' : PerChainState), pq'.perChainState[j]? = some st' →
      ∃ st, pq.perChainState[j]? = some st ∧ st'.chainId = st.chainId := by
  intro j st' hst'
  rcases processResponse_running_cases pq resp pq' h with
    ⟨rfl, _⟩ | ⟨st, hget, hchain, hcase⟩
  · exact ⟨st', hst', rfl⟩
  · rcases hcase with ⟨_, _, rfl⟩ | ⟨_, rfl⟩
    · by_cases hj : resp.requestIdx = j
      · subst hj
        rw [List.getElem?_set_eq_of_lt _ (List.getElem?_eq_some.mp hget).1]
          at hst'
        cases hst'
        exact ⟨st, hget, rfl⟩
      · rw [List.getElem?_set_ne hj] at hst'
        exact ⟨st', hst', rfl⟩
    · by_cases hj : resp.requestIdx = j
      · subst hj
        rw [List.getElem?_set_eq_of_lt _ (List.getElem?_eq_some.mp hget).1]
          at hst'
        cases hst'
        exact ⟨st, hget, rfl⟩
      · rw [List.getElem?_set_ne hj] at hst'
        exact ⟨st', hst', rfl⟩

theorem processAll_append (as bs : List PerChainQueryResponseInternal) :
    ∀ pq, processAll pq (as ++ bs)
      = match processAll pq as with
        | .running p => processAll p bs
        | .abandoned => .abandoned := by
  induction as with
  | nil => intro pq; rfl
  | cons a as ih =>
    intro pq
    rw [List.cons_append]
    show (match processResponse pq a with
          | .running pq2 => processAll pq2 (as ++ bs)
          | .abandoned => .abandoned)
      = match (match processResponse pq a with
               | .running pq2 => processAll pq2 as
               | .abandoned => .abandoned) with
        | .running p => processAll p bs
        | .abandoned => .abandoned
    cases processResponse pq a with
    | running p => exact ih p
    | abandoned => rfl

theorem processAll_running_length
    (resps : List PerChainQueryResponseInternal) :
    ∀ pq pq', processAll pq resps = .running pq' →
    pq'.perChainState.length = pq.perChainState.length := by
  induction resps with
  | nil =>
    intro pq pq' h
    cases h
    rfl
  | cons m rest ih =>
    intro pq pq' h
    unfold processAll at h
    cases hm : processResponse pq m with
    | abandoned => rw [hm] at h; cases h
    | running pq2 =>
      rw [hm] at h
      rw [ih pq2 pq' h]
      exact processResponse_running_length pq m pq2 hm

theorem countRetries_cons (i : Nat) (m : PerChainQueryResponseInternal)
    (rest : List PerChainQueryResponseInternal) :
    countRetries i (m :: rest)
      = countRetries i rest + (if isRetryFor i m then 1 else 0) :=
  List.countP_cons ..

theorem isRetryFor_of_ne (i : Nat) (m : PerChainQueryResponseInternal)
    (h : m.requestIdx ≠ i) : isRetryFor i m = false := by
  simp [isRetryFor, h]

theorem isRetryFor_of_success (i : Nat)
    (m : PerChainQueryResponseInternal)
    (h : m.status = .success) : isRetryFor i m = false := by
  simp [isRetryFor, h]

theorem isRetryFor_of_retry_eq (i : Nat)
    (m : PerChainQueryResponseInternal)
    (h1 : m.requestIdx = i) (h2 : m.status = .retryNeeded) :
    isRetryFor i m = true := by
  simp [isRetryFor, h1, h2]

theorem processAll_evolve (resps : List PerChainQueryResponseInternal) :
    ∀ pq pq', processAll pq resps = .running pq' →
    ∀ (i : Nat) (st : PerChainState), pq.perChainState[i]? = some st →
    ∃ st', pq'.perChainState[i]? = some st' ∧
      st'.chainId = st.chainId ∧
      st'.dispatchCount = st.dispatchCount + countRetries i resps ∧
      (st.result.isSome = true → st'.result = st.result) ∧
      ((∃ m ∈ resps, m.requestIdx = i ∧ m.status = .success) →
        st'.result.isSome = true) ∧
      (∀ r, st'.result = some r → st.result = some r ∨
        ∃ m ∈ resps, m.requestIdx = i ∧ m.status = .success ∧
          m.chainId = st.chainId ∧ r = ⟨m.chainId, m.response⟩) := by
  induction resps with
  | nil =>
    intro pq pq' h i st hst
    cases h
    refine ⟨st, hst, rfl, by simp [countRetries], fun _ => rfl, ?_,
      fun r hr => Or.inl hr⟩
    rintro ⟨m, hm, _⟩
    cases hm
  | cons m rest ih =>
    intro pq pq' h i st hst
    cases hm : processResponse pq m with
    | abandoned =>
      rw [show processAll pq (m :: rest)
          = match processResponse pq m with
            | .running pq2 => processAll pq2 rest
            | .abandoned => .abandoned from rfl, hm] at h
      cases h
    | running pq2 =>
      have h2 : processAll pq2 rest = .running pq' := by
        rw [show processAll pq (m :: rest)
            = match processResponse pq m with
              | .running pq2 => processAll pq2 rest
              | .abandoned => .abandoned from rfl, hm] at h
        exact h
      rcases processResponse_running_cases pq m pq2 hm with
        ⟨heq, hsame⟩ | ⟨st0, hget0, hchain0, hcase⟩
      · -- the message changed nothing (dropped, or duplicate success)
        rw [heq] at h2
        obtain ⟨st', hst', hch, hdisp, hmono, hsucc, hprov⟩ :=
          ih pq pq' h2 i st hst
        have hretf : isRetryFor i m = false := by
          by_cases him : m.requestIdx = i
          · obtain ⟨_, hstat, _⟩ := hsame st (by rw [him]; exact hst)
            exact isRetryFor_of_success i m hstat
          · exact isRetryFor_of_ne i m him
        refine ⟨st', hst', hch, ?_, hmono, ?_, ?_⟩
        · rw [countRetries_cons, hretf, if_neg (by simp)]
          exact hdisp
        · rintro ⟨m', hm', hidx', hstat'⟩
          rcases List.mem_cons.mp hm' with rfl | hmem
          · obtain ⟨_, _, hres⟩ := hsame st (by rw [hidx']; exact hst)
            rw [hmono hres]
            exact hres
          · exact hsucc ⟨m', hmem, hidx', hstat'⟩
        · intro r hr
          rcases hprov r hr with hl | ⟨m', hm', hr1, hr2, hr3, hr4⟩
          · exact Or.inl hl
          · exact Or.inr ⟨m', List.mem_cons_of_mem m hm', hr1, hr2, hr3,
              hr4⟩
      · rcases hcase with ⟨hstat, hres0, rfl⟩ | ⟨hstat, rfl⟩
        · -- first success at m.requestIdx: result recorded
          by_cases him : m.requestIdx = i
          · subst him
            rw [hget0] at hst
            cases hst
            have hlt := (List.getElem?_eq_some.mp hget0).1
            have hst2 : (pq.perChainState.set m.requestIdx
                  { st with
                    result := some ⟨m.chainId, m.response⟩ })[m.requestIdx]?
                = some { st with
                         result := some ⟨m.chainId, m.response⟩ } :=
              List.getElem?_set_eq_of_lt _ hlt
            obtain ⟨st', hst', hch, hdisp, hmono, hsucc, hprov⟩ :=
              ih _ pq' h2 m.requestIdx _ hst2
            have hres' : st'.result = some ⟨m.chainId, m.response⟩ :=
              hmono rfl
            refine ⟨st', hst', hch, ?_, ?_, ?_, ?_⟩
            · rw [countRetries_cons, isRetryFor_of_success _ m hstat,
                if_neg (by simp)]
              exact hdisp
            · intro hh
              rw [hres0] at hh
              simp at hh
            · intro _
              rw [hres']
              rfl
            · intro r hr
              rw [hres'] at hr
              cases hr
              exact Or.inr ⟨m, List.mem_cons_self m rest, rfl, hstat,
                hchain0, rfl⟩
          · have hst2 : (pq.perChainState.set m.requestIdx
                  { st0 with
                    result := some ⟨m.chainId, m.response⟩ })[i]?
                = some st := by
              rw [List.getElem?_set_ne him]
              exact hst
            obtain ⟨st', hst', hch, hdisp, hmono, hsucc, hprov⟩ :=
              ih _ pq' h2 i st hst2
            refine ⟨st', hst', hch, ?_, hmono, ?_, ?_⟩
            · rw [countRetries_cons, isRetryFor_of_ne i m him,
                if_neg (by simp)]
              exact hdisp
            · rintro ⟨m', hm', hidx', hstat'⟩
              rcases List.mem_cons.mp hm' with rfl | hmem
              · exact absurd hidx' him
              · exact hsucc ⟨m', hmem, hidx', hstat'⟩
            · intro r hr
              rcases hprov r hr with hl | ⟨m', hm', hr1, hr2, hr3, hr4⟩
              · exact Or.inl hl
              · exact Or.inr ⟨m', List.mem_cons_of_mem m hm', hr1, hr2,
                  hr3, hr4⟩
        · -- retry at m.requestIdx: counters bumped
          by_cases him : m.requestIdx = i
          · subst him
            rw [hget0] at hst
            cases hst
            have hlt := (List.getElem?_eq_some.mp hget0).1
            have hst2 : (pq.perChainState.set m.requestIdx
                  { st with
                    retryCount := st.retryCount + 1,
                    dispatchCount := st.dispatchCount + 1 })[m.requestIdx]?
                = some { st with
                         retryCount := st.retryCount + 1,
                         dispatchCount := st.dispatchCount + 1 } :=
              List.getElem?_set_eq_of_lt _ hlt
            obtain ⟨st', hst', hch, hdisp, hmono, hsucc, hprov⟩ :=
              ih _ pq' h2 m.requestIdx _ hst2
            refine ⟨st', hst', hch, ?_, hmono, ?_, ?_⟩
            · rw [countRetries_cons,
                isRetryFor_of_retry_eq m.requestIdx m rfl hstat,
                if_pos (by simp)]
              have hd2 : st'.dispatchCount
                  = st.dispatchCount + 1 + countRetries m.requestIdx rest :=
                hdisp
              omega
            · rintro ⟨m', hm', hidx', hstat'⟩
              rcases List.mem_cons.mp hm' with rfl | hmem
              · rw [hstat] at hstat'
                cases hstat'
              · exact hsucc ⟨m', hmem, hidx', hstat'⟩
            · intro r hr
              rcases hprov r hr with hl | ⟨m', hm', hr1, hr2, hr3, hr4⟩
              · exact Or.inl hl
              · exact Or.inr ⟨m', List.mem_cons_of_mem m hm', hr1, hr2,
                  hr3, hr4⟩
          · have hst2 : (pq.perChainState.set m.requestIdx
                  { st0 with
                    retryCount := st0.retryCount + 1,
                    dispatchCount := st0.dispatchCount + 1 })[i]?
                = some st := by
              rw [List.getElem?_set_ne him]
              exact hst
            obtain ⟨st', hst', hch, hdisp, hmono, hsucc, hprov⟩ :=
              ih _ pq' h2 i st hst2
            refine ⟨st', hst', hch, ?_, hmono, ?_, ?_⟩
            · rw [countRetries_cons, isRetryFor_of_ne i m him,
                if_neg (by simp)]
              exact hdisp
            · rintro ⟨m', hm', hidx', hstat'⟩
              rcases List.mem_cons.mp hm' with rfl | hmem
              · exact absurd hidx' him
              · exact hsucc ⟨m', hmem, hidx', hstat'⟩
            · intro r hr
              rcases hprov r hr with hl | ⟨m', hm', hr1, hr2, hr3, hr4⟩
              · exact Or.inl hl
              · exact Or.inr ⟨m', List.mem_cons_of_mem m hm', hr1, hr2,
                  hr3, hr4⟩

theorem processAll_no_abandon (resps : List PerChainQueryResponseInternal) :
    ∀ pq, (∀ m ∈ resps, m.status ≠ WatcherStatus.fatalError ∧
      (∀ st, pq.perChainState[m.requestIdx]? = some st →
        m.chainId = st.chainId)) →
    ∃ pq', processAll pq resps = .running pq' := by
  induction resps with
  | nil =>
    intro pq _
    exact ⟨pq, rfl⟩
  | cons m rest ih =>
    intro pq hw
    obtain ⟨hm1, hm2⟩ := hw m (List.mem_cons_self m rest)
    have hstep : ∃ pq2, processResponse pq m = .running pq2 := by
      cases hget : pq.perChainState[m.requestIdx]? with
      | none =>
        refine ⟨pq, ?_⟩
        simp only [processResponse, hget]
      | some st =>
        have hc : ¬ m.chainId ≠ st.chainId := not_not_intro (hm2 st hget)
        cases hstat : m.status with
        | success =>
          cases hres : st.result with
          | some r =>
            refine ⟨pq, ?_⟩
            simp only [processResponse, hget, if_neg hc, hstat, hres]
          | none =>
            refine ⟨⟨pq.perChainState.set m.requestIdx
              { st with result := some ⟨m.chainId, m.response⟩ }⟩, ?_⟩
            simp only [processResponse, hget, if_neg hc, hstat, hres]
        | retryNeeded =>
          refine ⟨⟨pq.perChainState.set m.requestIdx
            { st with retryCount := st.retryCount + 1,
                      dispatchCount := st.dispatchCount + 1 }⟩, ?_⟩
          simp only [processResponse, hget, if_neg hc, hstat]
        | fatalError => exact absurd hstat hm1
    obtain ⟨pq2, hpq2⟩ := hstep
    have hrest : ∀ m' ∈ rest, m'.status ≠ WatcherStatus.fatalError ∧
        (∀ st, pq2.perChainState[m'.requestIdx]? = some st →
          m'.chainId = st.chainId) := by
      intro m' hm'
      obtain ⟨h1, h2⟩ := hw m' (List.mem_cons_of_mem m hm')
      refine ⟨h1, fun st' hst' => ?_⟩
      obtain ⟨st, hst, hch⟩ := processResponse_running_chain pq m pq2 hpq2
        m'.requestIdx st' hst'
      rw [hch]
      exact h2 st hst
    obtain ⟨pq', hpq'⟩ := ih pq2 hrest
    refine ⟨pq', ?_⟩
    show (match processResponse pq m with
          | .running p => processAll p rest
          | .abandoned => .abandoned) = .running pq'
    rw [hpq2]
    exact hpq'

theorem initPendingQuery_getElem (queries : List PerChainQueryRequest)
    (i : Nat) :
    (initPendingQuery queries).perChainState[i]?
      = (queries[i]?).map (fun q => ⟨q.chainId, none, 0, 1⟩) := by
  simp [initPendingQuery]

theorem complete_of_all (pq : PendingQuery)
    (h : ∀ st ∈ pq.perChainState, st.result.isSome = true) :
    pq.complete = true := by
  unfold PendingQuery.complete
  rw [List.all_eq_true]
  exact h

theorem filterMap_result_eq_map (l : List PerChainState)
    (h : ∀ st ∈ l, st.result.isSome = true) :
    l.filterMap (fun st => st.result)
      = l.map (fun st => st.result.getD ⟨0, 0⟩) := by
  induction l with
  | nil => rfl
  | cons st rest ih =>
    obtain ⟨r, hr⟩ := Option.isSome_iff_exists.mp
      (h st (List.mem_cons_self st rest))
    rw [List.filterMap_cons, List.map_cons, hr]
    rw [ih (fun x hx => h x (List.mem_cons_of_mem st hx))]
    rfl

/-! Claims about the orchestrator. -/

/-- C2: whenever a query response publication is produced, the number of
per-chain responses equals the number of per-chain queries of the
original request, and the response at every position `i` corresponds to
the query at position `i` — it carries that query's chain and the
payload of a success message addressed to index `i` — regardless of the
order in which the chains answered. -/
theorem c2_responses_align_with_queries
    (queries : List PerChainQueryRequest)
    (resps : List PerChainQueryResponseInternal)
    (pub : List PerChainQueryResponse)
    (h : runQuery queries resps = some pub) :
    pub.length = queries.length ∧
    (∀ (i : Nat) (q : PerChainQueryRequest) (r : PerChainQueryResponse),
      queries[i]? = some q → pub[i]? = some r →
      r.chainId = q.chainId ∧
      ∃ m ∈ resps, m.requestIdx = i ∧ m.status = WatcherStatus.success ∧
        m.chainId = q.chainId ∧ r = ⟨q.chainId, m.response⟩) := by
  unfold runQuery at h
  cases hrun : processAll (initPendingQuery queries) resps with
  | abandoned =>
    rw [hrun] at h
    cases h
  | running pq =>
    rw [hrun] at h
    have h2 : (if pq.complete then some (buildPublication pq) else none)
        = some pub := h
    cases hc : pq.complete with
    | false =>
      rw [hc] at h2
      cases h2
    | true =>
      rw [hc] at h2
      have hpub : buildPublication pq = pub := by
        have h' : some (buildPublication pq) = some pub := by
          simpa using h2
        exact Option.some.inj h'
      have hall : ∀ st ∈ pq.perChainState, st.result.isSome = true := by
        unfold PendingQuery.complete at hc
        exact List.all_eq_true.mp hc
      have hlen : pq.perChainState.length = queries.length := by
        rw [processAll_running_length resps _ pq hrun]
        simp [initPendingQuery]
      constructor
      · rw [← hpub, buildPublication, filterMap_result_eq_map _ hall,
          List.length_map]
        exact hlen
      · intro i q r hq hr
        have hinit : (initPendingQuery queries).perChainState[i]?
            = some ⟨q.chainId, none, 0, 1⟩ := by
          rw [initPendingQuery_getElem, hq]
          rfl
        obtain ⟨st', hst', hch, _, _, _, hprov⟩ :=
          processAll_evolve resps _ pq hrun i _ hinit
        have hr2 : pub[i]?
            = (pq.perChainState[i]?).map
              (fun st => st.result.getD ⟨0, 0⟩) := by
          rw [← hpub, buildPublication, filterMap_result_eq_map _ hall]
          exact List.getElem?_map ..
        rw [hst'] at hr2
        rw [hr] at hr2
        have hsome : st'.result.isSome = true :=
          hall st' ((List.mem_iff_getElem?).mpr ⟨i, hst'⟩)
        obtain ⟨r0, hr0⟩ := Option.isSome_iff_exists.mp hsome
        have hrr0 : r = r0 := by
          have hr3 : some r = some (st'.result.getD ⟨0, 0⟩) := hr2
          rw [hr0] at hr3
          exact Option.some.inj hr3
        rcases hprov r0 hr0 with hl | ⟨m, hm, h1, h2, h3, h4⟩
        · cases hl
        · subst hrr0
          have hchq : m.chainId = q.chainId := h3
          refine ⟨?_, m, hm, h1, h2, hchq, ?_⟩
          · rw [h4, hchq]
          · rw [h4, hchq]

/-- C2 witness: a concrete interleaved two-chain run produces a
publication whose length equals the request's query count. -/
theorem c2_responses_align_with_queries_witness :
    runQuery queriesFix respsFix
      = some [⟨5, 10⟩, ⟨6, 11⟩] ∧
    ([⟨5, 10⟩, ⟨6, 11⟩] : List PerChainQueryResponse).length
      = queriesFix.length :=
  ⟨by decide,
   (c2_responses_align_with_queries queriesFix respsFix
     [⟨5, 10⟩, ⟨6, 11⟩] (by decide)).1⟩

/-- C6: when a per-chain query response arrives whose `chainId` does not
match the chain recorded for that sub-query's `requestIdx`, the mismatch
is fatal to the whole request: the orchestrator abandons the pending
query and no publication is ever produced for it, whatever responses
follow. -/
theorem c6_chain_mismatch_fatal (queries : List PerChainQueryRequest)
    (resps rest : List PerChainQueryResponseInternal)
    (resp : PerChainQueryResponseInternal) (pq : PendingQuery)
    (st : PerChainState)
    (hrun : processAll (initPendingQuery queries) resps = .running pq)
    (hst : pq.perChainState[resp.requestIdx]? = some st)
    (hmm : resp.chainId ≠ st.chainId) :
    processResponse pq resp = .abandoned ∧
    runQuery queries (resps ++ resp :: rest) = none := by
  have habs : processResponse pq resp = .abandoned := by
    simp only [processResponse, hst]
    rw [if_pos hmm]
  have habs2 : processAll pq (resp :: rest) = .abandoned := by
    show (match processResponse pq resp with
          | .running pq2 => processAll pq2 rest
          | .abandoned => .abandoned) = .abandoned
    rw [habs]
  refine ⟨habs, ?_⟩
  unfold runQuery
  rw [processAll_append resps (resp :: rest) (initPendingQuery queries),
    hrun]
  show (match processAll pq (resp :: rest) with
        | .abandoned => none
        | .running pq' =>
          if pq'.complete then some (buildPublication pq') else none)
      = none
  rw [habs2]

/-- C6 witness: a response claiming chain 6 for the sub-query recorded
on chain 5 abandons a concrete request, and no publication results. -/
theorem c6_chain_mismatch_fatal_witness :
    processResponse (initPendingQuery queriesFix) (succMsg 0 6 99)
      = OrchStep.abandoned ∧
    runQuery queriesFix ([] ++ succMsg 0 6 99 :: [succMsg 0 5 1])
      = none :=
  c6_chain_mismatch_fatal queriesFix [] [succMsg 0 5 1] (succMsg 0 6 99)
    (initPendingQuery queriesFix) ⟨5, none, 0, 1⟩ rfl (by decide)
    (by decide)

/-- C7: for a sub-query of an otherwise-successful request whose watcher
reports `RetryNeeded` exactly `k` times before success, the orchestrator
dispatches that sub-query exactly `k + 1` times in total (the initial
dispatch plus one re-dispatch per retry report) and the request still
completes with a successful aggregate response. -/
theorem c7_retry_then_success_dispatches
    (queries : List PerChainQueryRequest)
    (resps : List PerChainQueryResponseInternal) (i k : Nat)
    (hwell : ∀ m ∈ resps, m.status ≠ WatcherStatus.fatalError ∧
      wellRouted queries m)
    (hcomp : ∀ j, j < queries.length →
      ∃ m ∈ resps, m.requestIdx = j ∧ m.status = WatcherStatus.success)
    (hik : i < queries.length)
    (hk : countRetries i resps = k) :
    ∃ pq st, processAll (initPendingQuery queries) resps = .running pq ∧
      pq.perChainState[i]? = some st ∧
      st.dispatchCount = k + 1 ∧
      st.result.isSome = true ∧
      (runQuery queries resps).isSome = true := by
  have hw : ∀ m ∈ resps, m.status ≠ WatcherStatus.fatalError ∧
      (∀ st, (initPendingQuery queries).perChainState[m.requestIdx]?
        = some st → m.chainId = st.chainId) := by
    intro m hm
    obtain ⟨h1, h2⟩ := hwell m hm
    refine ⟨h1, fun st hst => ?_⟩
    rw [initPendingQuery_getElem] at hst
    cases hq : queries[m.requestIdx]? with
    | none =>
      rw [hq] at hst
      cases hst
    | some q =>
      rw [hq] at hst
      cases hst
      unfold wellRouted at h2
      rw [List.getElem?_map, hq] at h2
      exact h2.symm
  obtain ⟨pq, hpq⟩ := processAll_no_abandon resps (initPendingQuery queries)
    hw
  cases hq : queries[i]? with
  | none =>
    exact absurd (List.getElem?_eq_none_iff.mp hq) (by omega)
  | some q =>
    have hinit : (initPendingQuery queries).perChainState[i]?
        = some ⟨q.chainId, none, 0, 1⟩ := by
      rw [initPendingQuery_getElem, hq]
      rfl
    obtain ⟨st, hst, hch, hdisp, hmono, hsucc, hprov⟩ :=
      processAll_evolve resps _ pq hpq i _ hinit
    have hres : st.result.isSome = true := hsucc (hcomp i hik)
    have hd : st.dispatchCount = k + 1 := by
      have hd1 : st.dispatchCount = 1 + countRetries i resps := hdisp
      omega
    have hall : ∀ stx ∈ pq.perChainState, stx.result.isSome = true := by
      intro stx hmem
      obtain ⟨j, hj⟩ := (List.mem_iff_getElem?).mp hmem
      have hjlen : j < pq.perChainState.length :=
        (List.getElem?_eq_some.mp hj).1
      have hlen : pq.perChainState.length = queries.length := by
        rw [processAll_running_length resps _ pq hpq]
        simp [initPendingQuery]
      have hjq : j < queries.length := by omega
      cases hqj : queries[j]? with
      | none => exact absurd (List.getElem?_eq_none_iff.mp hqj) (by omega)
      | some qj =>
        have hinitj : (initPendingQuery queries).perChainState[j]?
            = some ⟨qj.chainId, none, 0, 1⟩ := by
          rw [initPendingQuery_getElem, hqj]
          rfl
        obtain ⟨st2, hst2, _, _, _, hsucc2, _⟩ :=
          processAll_evolve resps _ pq hpq j _ hinitj
        rw [hj] at hst2
        cases hst2
        exact hsucc2 (hcomp j hjq)
    have hcompl : pq.complete = true := complete_of_all pq hall
    refine ⟨pq, st, hpq, hst, hd, hres, ?_⟩
    unfold runQuery
    rw [hpq]
    simp [hcompl]

/-- C7 witness: in the concrete interleaved trace, sub-query 0 retried
twice then succeeded, was dispatched exactly three times, and the
request still published. -/
theorem c7_retry_then_success_dispatches_witness :
    ∃ pq st,
      processAll (initPendingQuery queriesFix) respsFix
        = OrchStep.running pq ∧
      pq.perChainState[0]? = some st ∧
      st.dispatchCount = 2 + 1 ∧
      st.result.isSome = true ∧
      (runQuery queriesFix respsFix).isSome = true :=
  c7_retry_then_success_dispatches queriesFix respsFix 0 2 (by decide)
    (by decide) (by decide) (by decide)

end CCQ
